import Mathlib

/-!
Shallow embedding of `plot_region` from `src/streamlit_app.py`.

The function builds an `n × n` grid of `(L, S)` points over `[0,1] × [0,1]`
with `np.linspace`/`np.meshgrid`, computes

  region1 = (L * S < c)
  ratio   = S / L  where L ≠ 0, and 0 where L = 0
  region2 = (ratio > 1/k) & (ratio < k)
  region  = region1 & region2

and also samples three boundary curves over `np.linspace(1e-9, 1, 400)`:
`S = c/L`, `S = k*L`, `S = (1/k)*L`.

Real-number arithmetic of the source is modelled over `ℚ`.  The numpy
`meshgrid` default (indexing "xy") gives `L[i][j] = Lvals[j]` and
`S[i][j] = Svals[i]`.
-/

namespace StreamlitApp

/-- The `i`-th entry of `np.linspace 0 1 n`.  For `n = 1` numpy returns the
single sample `[0]`; for `n ≥ 2` the samples are `i / (n - 1)`. -/
def linspaceAt (n i : ℕ) : ℚ :=
  if n ≤ 1 then 0 else (i : ℚ) / ((n : ℚ) - 1)

/-- `np.linspace(0, 1, n)` as a list. -/
def linspace (n : ℕ) : List ℚ :=
  (List.range n).map (linspaceAt n)

/-- `Lvals = np.linspace(0, 1, n)` (line 13 of the source). -/
def Lvals (n : ℕ) : List ℚ := linspace n

/-- `Svals = np.linspace(0, 1, n)` (line 14 of the source). -/
def Svals (n : ℕ) : List ℚ := linspace n

/-- Entry `(i, j)` of the meshgrid matrix `L`: with numpy "xy" indexing,
`L[i][j] = Lvals[j]`. -/
def Lgrid (n i j : ℕ) : ℚ := linspaceAt n j

/-- Entry `(i, j)` of the meshgrid matrix `S`: with numpy "xy" indexing,
`S[i][j] = Svals[i]`. -/
def Sgrid (n i j : ℕ) : ℚ := linspaceAt n i

/-- The coordinate matrix `L` as a list of rows. -/
def Lmatrix (n : ℕ) : List (List ℚ) :=
  (List.range n).map (fun i => (List.range n).map (fun j => Lgrid n i j))

/-- The coordinate matrix `S` as a list of rows. -/
def Smatrix (n : ℕ) : List (List ℚ) :=
  (List.range n).map (fun i => (List.range n).map (fun j => Sgrid n i j))

/-- `ratio`: zero-initialised, then `S/L` written at the points where
`L ≠ 0` (lines 23-25 of the source). -/
def ratio (n i j : ℕ) : ℚ :=
  if Lgrid n i j = 0 then 0 else Sgrid n i j / Lgrid n i j

/-- `region1 = (L * S < c)` at entry `(i, j)` (line 18). -/
def region1 (c : ℚ) (n i j : ℕ) : Bool :=
  decide (Lgrid n i j * Sgrid n i j < c)

/-- `region2 = (ratio > 1/k) & (ratio < k)` at entry `(i, j)` (line 26). -/
def region2 (k : ℚ) (n i j : ℕ) : Bool :=
  decide (ratio n i j > 1 / k) && decide (ratio n i j < k)

/-- `region = region1 & region2` at entry `(i, j)` (line 29). -/
def region (c k : ℚ) (n i j : ℕ) : Bool :=
  region1 c n i j && region2 k n i j

/-- The full boolean region matrix, rows indexed by `i`. -/
def regionMatrix (c k : ℚ) (n : ℕ) : List (List Bool) :=
  (List.range n).map (fun i => (List.range n).map (fun j => region c k n i j))

/-- The `i`-th entry of `l_line = np.linspace(1e-9, 1, 400)` (line 41). -/
def lLineAt (i : ℕ) : ℚ :=
  1 / 1000000000 + (1 - 1 / 1000000000) * (i : ℚ) / 399

/-- `l_line = np.linspace(1e-9, 1, 400)` as a list. -/
def l_line : List ℚ :=
  (List.range 400).map lLineAt

/-- The hyperbola samples `s_hyp = c / l_line` (line 42). -/
def s_hyp (c : ℚ) : List ℚ :=
  l_line.map (fun l => c / l)

/-- The upper line samples `s_line_up = k * l_line` (line 44). -/
def s_line_up (k : ℚ) : List ℚ :=
  l_line.map (fun l => k * l)

/-- The lower line samples `s_line_dn = (1/k) * l_line` (line 45). -/
def s_line_dn (k : ℚ) : List ℚ :=
  l_line.map (fun l => (1 / k) * l)

/-- Division that signals a division-by-zero branch with `none`. -/
def divOpt (a b : ℚ) : Option ℚ :=
  if b = 0 then none else some (a / b)

/-- The ratio computation with the division-by-zero branch made explicit:
the zero-mask of lines 23-25 guards the division. -/
def ratioChecked (n i j : ℕ) : Option ℚ :=
  if Lgrid n i j = 0 then some 0 else divOpt (Sgrid n i j) (Lgrid n i j)

/-! ### Helper lemmas -/

theorem linspaceAt_nonneg (n i : ℕ) : 0 ≤ linspaceAt n i := by
  unfold linspaceAt
  split
  · exact le_refl 0
  · rename_i h
    have h1 : (1:ℚ) < (n:ℚ) := by exact_mod_cast (by omega : 1 < n)
    exact div_nonneg (Nat.cast_nonneg i) (by linarith)

theorem linspaceAt_zero (n : ℕ) : linspaceAt n 0 = 0 := by
  unfold linspaceAt
  split
  · rfl
  · simp

theorem regionMatrix_getD (c k : ℚ) (n i j : ℕ) (hi : i < n) (hj : j < n) :
    ((regionMatrix c k n).getD i []).getD j false = region c k n i j := by
  simp [regionMatrix, List.getD, List.getElem?_map, List.getElem?_range, hi, hj]

/-! ### Claims -/

/-- C1: for every c > 0, k ≥ 1 and n ≥ 1, at every grid point (i, j) the
region matrix entry is true iff L*S < c, ratio > 1/k and ratio < k, where
ratio is S/L when L ≠ 0 and 0 when L = 0. -/
theorem C1_region_pointwise (c k : ℚ) (n i j : ℕ) (hc : 0 < c) (hk : 1 ≤ k)
    (hn : 1 ≤ n) (hi : i < n) (hj : j < n) :
    ((regionMatrix c k n).getD i []).getD j false = true ↔
      (Lgrid n i j * Sgrid n i j < c ∧
       (if Lgrid n i j = 0 then (0:ℚ) else Sgrid n i j / Lgrid n i j) > 1 / k ∧
       (if Lgrid n i j = 0 then (0:ℚ) else Sgrid n i j / Lgrid n i j) < k) := by
  rw [regionMatrix_getD c k n i j hi hj]
  simp [region, region1, region2, ratio, and_assoc]

/-- Witness for C1 at c = 1/1000, k = 10, n = 200, i = j = 2. -/
theorem C1_region_pointwise_witness :
    (0:ℚ) < 1 / 1000 ∧
      (((regionMatrix (1/1000) 10 200).getD 2 []).getD 2 false = true ↔
        (Lgrid 200 2 2 * Sgrid 200 2 2 < 1 / 1000 ∧
         (if Lgrid 200 2 2 = 0 then (0:ℚ) else Sgrid 200 2 2 / Lgrid 200 2 2) > 1 / 10 ∧
         (if Lgrid 200 2 2 = 0 then (0:ℚ) else Sgrid 200 2 2 / Lgrid 200 2 2) < 10)) :=
  ⟨by norm_num,
   C1_region_pointwise (1/1000) 10 200 2 2 (by norm_num) (by norm_num)
     (by norm_num) (by norm_num) (by norm_num)⟩

/-- C2: for k ≥ 1, at every grid point where L = 0 the ratio is 0, region2
is false there, and hence region is false there regardless of region1. -/
theorem C2_zero_L_excluded (c k : ℚ) (n i j : ℕ) (hc : 0 < c) (hk : 1 ≤ k)
    (hn : 1 ≤ n) (hL : Lgrid n i j = 0) :
    ratio n i j = 0 ∧ region2 k n i j = false ∧ region c k n i j = false := by
  have hr : ratio n i j = 0 := by simp [ratio, hL]
  have hk0 : (0:ℚ) < k := lt_of_lt_of_le one_pos hk
  have hnot : ¬ ((1:ℚ) / k < 0) := not_lt.2 (by positivity)
  have h2 : region2 k n i j = false := by
    simp [region2, hr, hnot]
    exact fun h => h.le
  exact ⟨hr, h2, by simp [region, h2]⟩

/-- Witness for C2 at c = 1/20, k = 10, n = 5, i = 1, j = 0 (there L = 0). -/
theorem C2_zero_L_excluded_witness :
    Lgrid 5 1 0 = 0 ∧
      (ratio 5 1 0 = 0 ∧ region2 10 5 1 0 = false ∧
       region (1/20) 10 5 1 0 = false) :=
  ⟨by norm_num [Lgrid, linspaceAt],
   C2_zero_L_excluded (1/20) 10 5 1 0 (by norm_num) (by norm_num) (by norm_num)
     (by norm_num [Lgrid, linspaceAt])⟩

/-- C3: monotonicity in c: for c₁ < c₂ (k, n fixed), any grid point in
region1 at threshold c₁ is also in region1 at threshold c₂. -/
theorem C3_region1_monotone (c₁ c₂ k : ℚ) (n i j : ℕ) (hk : 1 ≤ k)
    (hn : 1 ≤ n) (hc : c₁ < c₂) (h1 : region1 c₁ n i j = true) :
    region1 c₂ n i j = true := by
  have h := of_decide_eq_true h1
  exact decide_eq_true (lt_trans h hc)

/-- Witness for C3 at c₁ = 1/100, c₂ = 1/10, k = 10, n = 5, i = j = 0. -/
theorem C3_region1_monotone_witness :
    region1 (1/100) 5 0 0 = true ∧ region1 (1/10) 5 0 0 = true :=
  ⟨by norm_num [region1, Lgrid, Sgrid, linspaceAt],
   C3_region1_monotone (1/100) (1/10) 10 5 0 0 (by norm_num) (by norm_num)
     (by norm_num) (by norm_num [region1, Lgrid, Sgrid, linspaceAt])⟩

/-- C4: for k ≥ 1, region2 is invariant under exchanging the L and S
coordinates: since Lvals = Svals, swapping the indices i and j swaps L and
S, and region2 k n i j = region2 k n j i, including on the L = 0 and
S = 0 edges. -/
theorem C4_region2_symmetric (k : ℚ) (n i j : ℕ) (hk : 1 ≤ k)
    (hi : i < n) (hj : j < n) :
    region2 k n i j = region2 k n j i := by
  have hk0 : (0:ℚ) < k := lt_of_lt_of_le one_pos hk
  have ha := linspaceAt_nonneg n i
  have hb := linspaceAt_nonneg n j
  by_cases hbz : linspaceAt n j = 0
  · by_cases haz : linspaceAt n i = 0
    · simp [region2, ratio, Lgrid, Sgrid, hbz, haz]
    · simp [region2, ratio, Lgrid, Sgrid, hbz, haz]
  · by_cases haz : linspaceAt n i = 0
    · simp [region2, ratio, Lgrid, Sgrid, hbz, haz]
    · have ha' : 0 < linspaceAt n i := lt_of_le_of_ne ha (Ne.symm haz)
      have hb' : 0 < linspaceAt n j := lt_of_le_of_ne hb (Ne.symm hbz)
      have h1 : 1 / k < linspaceAt n i / linspaceAt n j ↔
          linspaceAt n j / linspaceAt n i < k := by
        rw [div_lt_div_iff₀ hk0 hb', div_lt_iff₀ ha']
        constructor <;> intro h <;> nlinarith
      have h2 : linspaceAt n i / linspaceAt n j < k ↔
          1 / k < linspaceAt n j / linspaceAt n i := by
        rw [div_lt_iff₀ hb', div_lt_div_iff₀ hk0 ha']
        constructor <;> intro h <;> nlinarith
      simp only [region2, ratio, Lgrid, Sgrid, if_neg hbz, if_neg haz, gt_iff_lt]
      rw [decide_eq_decide.mpr h1, decide_eq_decide.mpr h2, Bool.and_comm]

/-- Witness for C4 at k = 10, n = 5, i = 1, j = 2. -/
theorem C4_region2_symmetric_witness :
    (1:ℚ) ≤ 10 ∧ region2 10 5 1 2 = region2 10 5 2 1 :=
  ⟨by norm_num,
   C4_region2_symmetric 10 5 1 2 (by norm_num) (by norm_num) (by norm_num)⟩

/-- C5 counterexample: for n = 1, np.linspace(0, 1, 1) returns the single
sample [0], so the endpoint 1 is not among the samples, refuting the claim
for n = 1. -/
theorem C5_counterexample_n_one : ¬ ((1:ℚ) ∈ Lvals 1) := by
  norm_num [Lvals, linspace, linspaceAt, List.range_succ]

/-- C5 (amended): for every n ≥ 2, Lvals and Svals are n evenly spaced
samples in [0,1] containing both endpoints 0 and 1, and for every c, k
the region matrix is n-by-n with boolean entries; for n = 1 the single
sample is 0, and the 5-by-5 case for c = 0.05, k = 10 is recorded as a
concrete conjunct. -/
theorem C5_grid_and_shape (n : ℕ) (hn : 2 ≤ n) :
    (Lvals n).length = n ∧ (Svals n).length = n ∧
    (0:ℚ) ∈ Lvals n ∧ (1:ℚ) ∈ Lvals n ∧
    (0:ℚ) ∈ Svals n ∧ (1:ℚ) ∈ Svals n ∧
    (∀ i, i + 1 < n → linspaceAt n (i + 1) - linspaceAt n i = 1 / ((n:ℚ) - 1)) ∧
    (∀ i, i < n → 0 ≤ linspaceAt n i ∧ linspaceAt n i ≤ 1) ∧
    (∀ c k : ℚ, (regionMatrix c k n).length = n ∧
      ∀ row ∈ regionMatrix c k n, row.length = n) ∧
    ((regionMatrix (1/20) 10 5).length = 5 ∧
      ∀ row ∈ regionMatrix (1/20) 10 5, row.length = 5) := by
  have hn1 : (1:ℚ) < (n:ℚ) := by exact_mod_cast (by omega : 1 < n)
  have hone : linspaceAt n (n - 1) = 1 := by
    unfold linspaceAt
    rw [if_neg (by omega)]
    rw [Nat.cast_sub (by omega : 1 ≤ n), Nat.cast_one, div_self (by linarith)]
  refine ⟨by simp [Lvals, linspace], by simp [Svals, linspace], ?_, ?_, ?_, ?_,
    ?_, ?_, ?_, ?_⟩
  · exact List.mem_map.2 ⟨0, List.mem_range.2 (by omega), linspaceAt_zero n⟩
  · exact List.mem_map.2 ⟨n - 1, List.mem_range.2 (by omega), hone⟩
  · exact List.mem_map.2 ⟨0, List.mem_range.2 (by omega), linspaceAt_zero n⟩
  · exact List.mem_map.2 ⟨n - 1, List.mem_range.2 (by omega), hone⟩
  · intro i hi1
    unfold linspaceAt
    rw [if_neg (by omega), if_neg (by omega), div_sub_div_same]
    have hcast : ((i + 1 : ℕ) : ℚ) - (i : ℚ) = 1 := by push_cast; ring
    rw [hcast]
  · intro i hi
    refine ⟨linspaceAt_nonneg n i, ?_⟩
    unfold linspaceAt
    rw [if_neg (by omega), div_le_one (by linarith)]
    have : (i:ℚ) + 1 ≤ (n:ℚ) := by exact_mod_cast hi
    linarith
  · intro c k
    refine ⟨by simp [regionMatrix], ?_⟩
    intro row hrow
    simp only [regionMatrix, List.mem_map, List.mem_range] at hrow
    obtain ⟨m, -, rfl⟩ := hrow
    simp
  · refine ⟨by simp [regionMatrix], ?_⟩
    intro row hrow
    simp only [regionMatrix, List.mem_map, List.mem_range] at hrow
    obtain ⟨m, -, rfl⟩ := hrow
    simp

/-- Witness for C5 (amended) at n = 5. -/
theorem C5_grid_and_shape_witness :
    2 ≤ 5 ∧ (Lvals 5).length = 5 ∧ (1:ℚ) ∈ Lvals 5 ∧
      (regionMatrix (1/20) 10 5).length = 5 := by
  have H := C5_grid_and_shape 5 (by norm_num)
  exact ⟨by norm_num, H.1, H.2.2.2.1, H.2.2.2.2.2.2.2.2.2.1⟩

/-- C6: each boundary curve is sampled at exactly 400 points no matter
what n is, and every sampled L value in l_line is strictly positive. -/
theorem C6_boundary_curves (c k : ℚ) (n : ℕ) (hc : 0 < c) (hk : 1 ≤ k)
    (hn : 1 ≤ n) :
    (s_hyp c).length = 400 ∧ (s_line_up k).length = 400 ∧
    (s_line_dn k).length = 400 ∧ ∀ l ∈ l_line, 0 < l := by
  refine ⟨by simp [s_hyp, l_line], by simp [s_line_up, l_line],
    by simp [s_line_dn, l_line], ?_⟩
  intro l hl
  simp only [l_line, List.mem_map, List.mem_range] at hl
  obtain ⟨i, -, rfl⟩ := hl
  unfold lLineAt
  have h1 : (0:ℚ) ≤ (1 - 1/1000000000) * (i:ℚ) / 399 :=
    div_nonneg (mul_nonneg (by norm_num) (Nat.cast_nonneg i)) (by norm_num)
  have h2 : (0:ℚ) < 1/1000000000 := by norm_num
  linarith

/-- Witness for C6 at c = 1/20, k = 10, n = 5. -/
theorem C6_boundary_curves_witness :
    (0:ℚ) < 1/20 ∧ ((s_hyp (1/20)).length = 400 ∧
      (s_line_up (10:ℚ)).length = 400 ∧ (s_line_dn (10:ℚ)).length = 400 ∧
      ∀ l ∈ l_line, 0 < l) :=
  ⟨by norm_num, C6_boundary_curves (1/20) 10 5 (by norm_num) (by norm_num)
    (by norm_num)⟩

/-- C7: for n = 200, c = 1/1000, k = 10 the region matrix has a true cell
at the diagonal grid point i = j = 2, where L = S = 2/199 ≈ 0.01. -/
theorem C7_true_cell_near_001 :
    ((regionMatrix (1/1000) 10 200).getD 2 []).getD 2 false = true ∧
    Lgrid 200 2 2 = 2/199 ∧ Sgrid 200 2 2 = 2/199 := by
  refine ⟨?_, by norm_num [Lgrid, linspaceAt], by norm_num [Sgrid, linspaceAt]⟩
  rw [regionMatrix_getD (1/1000) 10 200 2 2 (by norm_num) (by norm_num)]
  norm_num [region, region1, region2, ratio, Lgrid, Sgrid, linspaceAt]

/-- C8: the zero-mask pre-empts every division by zero: the checked ratio
computation never reaches the division-by-zero branch (it is always some),
and it agrees with the ratio actually computed. -/
theorem C8_division_safe (c k : ℚ) (n i j : ℕ) (hc : 0 < c) (hk : 1 ≤ k)
    (hn : 1 ≤ n) :
    (ratioChecked n i j).isSome = true ∧
      ratioChecked n i j = some (ratio n i j) := by
  by_cases h : Lgrid n i j = 0
  · simp [ratioChecked, ratio, h]
  · simp [ratioChecked, divOpt, ratio, h]

/-- Witness for C8 at c = 1/20, k = 10, n = 5, i = 1, j = 2. -/
theorem C8_division_safe_witness :
    (0:ℚ) < 1/20 ∧ ((ratioChecked 5 1 2).isSome = true ∧
      ratioChecked 5 1 2 = some (ratio 5 1 2)) :=
  ⟨by norm_num, C8_division_safe (1/20) 10 5 1 2 (by norm_num) (by norm_num)
    (by norm_num)⟩

/-- C9: two invocations with equal inputs produce equal region matrices,
equal coordinate grids and equal boundary-curve samples; the embedding is
a pure function of (c, k, n), so nothing is shared or mutated between
calls. -/
theorem C9_deterministic (c₁ c₂ k₁ k₂ : ℚ) (n₁ n₂ : ℕ)
    (hc : c₁ = c₂) (hk : k₁ = k₂) (hn : n₁ = n₂) :
    regionMatrix c₁ k₁ n₁ = regionMatrix c₂ k₂ n₂ ∧
    Lmatrix n₁ = Lmatrix n₂ ∧ Smatrix n₁ = Smatrix n₂ ∧
    s_hyp c₁ = s_hyp c₂ ∧ s_line_up k₁ = s_line_up k₂ ∧
    s_line_dn k₁ = s_line_dn k₂ := by
  subst hc; subst hk; subst hn
  exact ⟨rfl, rfl, rfl, rfl, rfl, rfl⟩

/-- Witness for C9 at c = 1/20, k = 10, n = 5. -/
theorem C9_deterministic_witness :
    regionMatrix (1/20) 10 5 = regionMatrix (1/20) 10 5 ∧
    Lmatrix 5 = Lmatrix 5 ∧ Smatrix 5 = Smatrix 5 ∧
    s_hyp (1/20) = s_hyp (1/20) ∧ s_line_up (10:ℚ) = s_line_up (10:ℚ) ∧
    s_line_dn (10:ℚ) = s_line_dn (10:ℚ) :=
  C9_deterministic (1/20) (1/20) 10 10 5 5 rfl rfl rfl

/-- C10: for k = 1 the open interval (1/k, k) = (1, 1) is empty, so
region2 is false at every grid point and the whole region matrix is
false. -/
theorem C10_k_one_empty (c : ℚ) (n i j : ℕ) (hc : 0 < c) (hn : 1 ≤ n) :
    region2 1 n i j = false ∧ region c 1 n i j = false := by
  have h2 : region2 1 n i j = false := by
    rcases lt_or_le (ratio n i j) 1 with h | h
    · have hh : ¬ ((1:ℚ) / 1 < ratio n i j) := by
        rw [one_div_one]
        exact not_lt.2 h.le
      simp [region2, hh]
      exact fun hlt => hlt.le
    · have hh : ¬ (ratio n i j < 1) := not_lt.2 h
      simp [region2, hh]
  exact ⟨h2, by simp [region, h2]⟩

/-- Witness for C10 at c = 1/20, n = 5, i = 1, j = 2. -/
theorem C10_k_one_empty_witness :
    (0:ℚ) < 1/20 ∧ (region2 1 5 1 2 = false ∧ region (1/20) 1 5 1 2 = false) :=
  ⟨by norm_num, C10_k_one_empty (1/20) 5 1 2 (by norm_num) (by norm_num)⟩

end StreamlitApp
